import Mathlib

/-!
# Verification of the MCP connection and resilience subsystem

A shallow embedding, in Lean 4, of the `app/mcp` package of the
`ms-teams-ai-agent` repository, together with theorems settling the spec's
claims about it.  The embedded modules are:

* `circuit_breaker.py` — the `CircuitBreaker` state machine
  (`CircuitState`, `state_eval` for the lazy `state` property,
  `on_success`, `on_failure`, `CircuitBreaker.call`);
* `registry.py` — `MCPToolRegistry` with `register_tool`, `get_tool`,
  `remove_tool`, `clear`, `get_tool_count`;
* `discovery.py` — `discover_tools` response parsing;
* `bridge.py` — `MCPToolBridge.execute_tool`;
* `manager.py` — `_calculate_backoff` and the retry loop of
  `connect_server`;
* `config.py` / `loader.py` — `parse_env_var_servers` and the JSON/env
  merge of `load_mcp_config`.

Modelling conventions:

* Python `dict`s are association lists with insertion-order update
  semantics (`dictInsert`: overwrite in place if the key is present,
  append otherwise); `dict.get` is `envLookup` (first match).
* Timestamps (`time.time()` values) and the breaker's `recovery_timeout`
  are modelled as integers in abstract time units: the source relies only
  on ordering, subtraction and `max 0.0` of these floats.  The random
  jitter of `_calculate_backoff` is genuinely fractional and is modelled
  over `ℚ`, with the `random.uniform(0, 0.5)` draw passed in explicitly.
* `async` functions have no concurrent interleaving relevant to the
  claims; they are modelled as pure state-passing functions, with the
  wrapped operation's outcome (return value or raised exception) passed
  in as data.
-/

/-- JSON values (no separate `null` constructor: Python maps both JSON
`null` and an absent field to `None`, which we model as `Option.none`
at the use sites). -/
inductive JsonValue where
  | str (s : String)
  | num (n : Int)
  | bool (b : Bool)
  | arr (elems : List JsonValue)
  | obj (fields : List (String × JsonValue))

/-- First-match lookup in an association list: Python `dict[k]` /
`dict.get(k)` on a unique-key dict, and `os.environ.get`. -/
def envLookup (l : List (String × α)) (k : String) : Option α :=
  (l.find? (fun p => p.1 = k)).map (fun p => p.2)

/-- Python `dict` assignment `d[k] = v`: overwrite in place when the key
is present, append otherwise (insertion-order semantics). -/
def dictInsert (k : String) (v : α) (l : List (String × α)) : List (String × α) :=
  if l.any (fun p => p.1 = k) then
    l.map (fun p => if p.1 = k then (k, v) else p)
  else
    l ++ [(k, v)]

/-! ## `circuit_breaker.py` -/

/-- `CircuitState` from `circuit_breaker.py` (`OPEN` is spelled `opened`
because `open` is a Lean keyword). -/
inductive CircuitState where
  | closed
  | opened
  | halfOpen
deriving DecidableEq, Repr

/-- The constructor parameters of `CircuitBreaker.__init__`
(`name` is irrelevant to the claims and omitted). -/
structure CircuitBreakerConfig where
  failure_threshold : Nat := 5
  recovery_timeout : Int := 60
  success_threshold : Nat := 2
deriving DecidableEq, Repr

/-- The mutable fields of a `CircuitBreaker` instance: `_state`,
`_failure_count`, `_success_count`, `_last_failure_time`. -/
structure CBState where
  raw_state : CircuitState := CircuitState.closed
  failure_count : Nat := 0
  success_count : Nat := 0
  last_failure_time : Option Int := none
deriving DecidableEq, Repr

/-- The state set up by `CircuitBreaker.__init__`. -/
def CircuitBreaker.initial : CBState := {}

/-- `CircuitBreaker._should_attempt_reset`, with `time.time()` passed in
as `now`. -/
def should_attempt_reset (cfg : CircuitBreakerConfig) (now : Int) (s : CBState) : Bool :=
  match s.last_failure_time with
  | none => false
  | some t => decide (cfg.recovery_timeout ≤ now - t)

/-- The `CircuitBreaker.state` property: returns the current state after
the lazy OPEN → HALF_OPEN transition (which also resets
`_success_count`), together with the updated instance state. -/
def state_eval (cfg : CircuitBreakerConfig) (now : Int) (s : CBState) :
    CircuitState × CBState :=
  if s.raw_state = CircuitState.opened ∧ should_attempt_reset cfg now s = true then
    let s2 : CBState := { s with raw_state := CircuitState.halfOpen, success_count := 0 }
    (s2.raw_state, s2)
  else
    (s.raw_state, s)

/-- `CircuitBreaker._time_until_reset`. -/
def time_until_reset (cfg : CircuitBreakerConfig) (now : Int) (s : CBState) : Int :=
  match s.last_failure_time with
  | none => 0
  | some t => max 0 (cfg.recovery_timeout - (now - t))

/-- `CircuitBreaker._on_success`. -/
def on_success (cfg : CircuitBreakerConfig) (s : CBState) : CBState :=
  if s.raw_state = CircuitState.halfOpen then
    let s1 : CBState := { s with success_count := s.success_count + 1 }
    if cfg.success_threshold ≤ s1.success_count then
      { s1 with raw_state := CircuitState.closed, failure_count := 0,
                success_count := 0, last_failure_time := none }
    else s1
  else if s.raw_state = CircuitState.closed then
    { s with failure_count := 0 }
  else s

/-- `CircuitBreaker._on_failure`, with `time.time()` passed in as `now`. -/
def on_failure (cfg : CircuitBreakerConfig) (now : Int) (s : CBState) : CBState :=
  let s1 : CBState := { s with failure_count := s.failure_count + 1,
                               last_failure_time := some now }
  if s1.raw_state = CircuitState.halfOpen then
    { s1 with raw_state := CircuitState.opened, success_count := 0 }
  else if s1.raw_state = CircuitState.closed then
    if cfg.failure_threshold ≤ s1.failure_count then
      { s1 with raw_state := CircuitState.opened }
    else s1
  else s1

/-- The outcome of the wrapped async operation: it either returns a value
or raises an exception (of an arbitrary type `ε`). -/
inductive OpOutcome (ε α : Type) where
  | ok (v : α)
  | err (e : ε)
deriving DecidableEq

/-- What `CircuitBreaker.call` does: return a value, raise
`MCPConnectionError` because the breaker is OPEN (carrying
`_time_until_reset`), or re-raise the operation's own exception. -/
inductive CallResult (ε α : Type) where
  | ok (v : α)
  | circuitOpenErr (remaining : Int)
  | opErr (e : ε)
deriving DecidableEq

/-- Result of one `CircuitBreaker.call`: the returned/raised outcome, the
updated breaker state, and whether the wrapped operation was invoked. -/
structure CallStep (ε α : Type) where
  result : CallResult ε α
  state : CBState
  invoked : Bool
deriving DecidableEq

/-- `CircuitBreaker.call`: evaluate the `state` property (lazy
transition), fail fast with `MCPConnectionError` when OPEN, otherwise run
the operation and record success or failure, re-raising the operation's
exception unchanged. -/
def CircuitBreaker.call (cfg : CircuitBreakerConfig) (now : Int)
    (op : OpOutcome ε α) (s : CBState) : CallStep ε α :=
  let current := state_eval cfg now s
  if current.1 = CircuitState.opened then
    { result := CallResult.circuitOpenErr (time_until_reset cfg now current.2),
      state := current.2, invoked := false }
  else
    match op with
    | OpOutcome.ok v =>
        { result := CallResult.ok v, state := on_success cfg current.2, invoked := true }
    | OpOutcome.err e =>
        { result := CallResult.opErr e, state := on_failure cfg now current.2, invoked := true }

/-- `n` consecutive recorded failures (`_on_failure`), all stamped `now`. -/
def on_failure_iter (cfg : CircuitBreakerConfig) (now : Int) : Nat → CBState → CBState
  | 0, s => s
  | n + 1, s => on_failure_iter cfg now n (on_failure cfg now s)

/-- `n` consecutive recorded successes (`_on_success`). -/
def on_success_iter (cfg : CircuitBreakerConfig) : Nat → CBState → CBState
  | 0, s => s
  | n + 1, s => on_success_iter cfg n (on_success cfg s)

/-! ## `tool_schema.py` and `registry.py` -/

/-- `MCPToolSchema` from `tool_schema.py` (a dataclass; `server_name` and
`full_name` default to the empty string until the registry fills them in). -/
structure MCPToolSchema where
  name : String
  description : String
  input_schema : JsonValue
  server_name : String := ""
  full_name : String := ""

/-- `MCPToolRegistry`: the `_tools` dict (the lock serialises operations
and is invisible in this sequential model). -/
structure MCPToolRegistry where
  tools : List (String × MCPToolSchema) := []

/-- The empty registry built by `MCPToolRegistry.__init__`. -/
def MCPToolRegistry.empty : MCPToolRegistry := {}

/-- `MCPToolRegistry.register_tool`: computes the full name
`server_name.tool_name`, sets the metadata fields on the tool, stores it,
and returns the full name together with the updated registry. -/
def register_tool (reg : MCPToolRegistry) (server_name : String)
    (tool : MCPToolSchema) : String × MCPToolRegistry :=
  let full_name := server_name ++ "." ++ tool.name
  let tool1 := { tool with server_name := server_name, full_name := full_name }
  (full_name, { tools := dictInsert full_name tool1 reg.tools })

/-- `MCPToolRegistry.get_tool`. -/
def get_tool (reg : MCPToolRegistry) (full_name : String) : Option MCPToolSchema :=
  envLookup reg.tools full_name

/-- `MCPToolRegistry.remove_tool`: returns whether something was removed,
together with the updated registry. -/
def remove_tool (reg : MCPToolRegistry) (full_name : String) :
    Bool × MCPToolRegistry :=
  if reg.tools.any (fun p => p.1 = full_name) then
    (true, { tools := reg.tools.filter (fun p => decide (p.1 ≠ full_name)) })
  else
    (false, reg)

/-- `MCPToolRegistry.clear`. -/
def MCPToolRegistry.clear (_reg : MCPToolRegistry) : MCPToolRegistry := {}

/-- `MCPToolRegistry.get_tool_count`. -/
def get_tool_count (reg : MCPToolRegistry) : Nat := reg.tools.length

/-! ## `discovery.py` -/

/-- One entry of the `tools` array in a `tools/list` response: a dict in
which each of the three fields the parser reads may be absent. -/
structure RawTool where
  name : Option String := none
  description : Option String := none
  inputSchema : Option JsonValue := none

/-- The `result` object of a `tools/list` response (`tools` may be absent). -/
structure ToolsResult where
  tools : Option (List RawTool) := none

/-- A `tools/list` response envelope (`result` may be absent). -/
structure ToolsListResponse where
  result : Option ToolsResult := none

/-- The default input schema used when a tool entry has no `inputSchema`:
the dict literal from `discovery.py` line 56. -/
def default_input_schema : JsonValue :=
  JsonValue.obj [("type", JsonValue.str "object"), ("properties", JsonValue.obj [])]

/-- The per-entry parsing of the loop body of `discover_tools`: a missing
`name` raises `ValueError` (the message is the source text minus its
quote characters). -/
def parse_tool (tool_data : RawTool) : Except String MCPToolSchema :=
  match tool_data.name with
  | none => Except.error "Tool missing required name field"
  | some nm =>
      Except.ok { name := nm,
                  description := tool_data.description.getD "",
                  input_schema := tool_data.inputSchema.getD default_input_schema }

/-- The `for tool_data in result["tools"]` loop of `discover_tools`:
build the schema list in order, raising on the first entry without a
`name`. -/
def parse_tools_list : List RawTool → Except String (List MCPToolSchema)
  | [] => Except.ok []
  | td :: tl =>
      match parse_tool td with
      | Except.error e => Except.error e
      | Except.ok t =>
          match parse_tools_list tl with
          | Except.error e => Except.error e
          | Except.ok ts => Except.ok (t :: ts)

/-- `discover_tools` applied to the response envelope the client returned
(transport failures re-raised before parsing are outside this function). -/
def discover_tools (response : ToolsListResponse) :
    Except String (List MCPToolSchema) :=
  match response.result with
  | none => Except.ok []
  | some result =>
      match result.tools with
      | none => Except.ok []
      | some tool_list => parse_tools_list tool_list

/-! ## `bridge.py` -/

/-- The error object of a JSON-RPC error response; the bridge reads only
`error.get("message", "Unknown error")`. -/
structure RpcErrorObj where
  message : Option String := none

/-- The response envelope returned by `client.send_request`: the bridge
checks membership of `"error"` and reads `response.get("result")`. -/
structure MCPResponse where
  error : Option RpcErrorObj := none
  result : Option JsonValue := none

/-- The `params` object of a `tools/call` request. -/
structure ToolCallParams where
  name : String
  arguments : JsonValue

/-- The JSON-RPC request dict built by `execute_tool`. -/
structure JsonRpcRequest where
  jsonrpc : String
  method : String
  id : Nat
  params : ToolCallParams

/-- The errors `execute_tool` can raise: `ValueError` for an unknown tool,
`MCPConnectionError` when no client is pooled for the server (raised by
`manager.get_client`), and the generic `Exception` wrapping a provider
error message. -/
inductive BridgeError where
  | toolNotFound (full_tool_name : String)
  | connectionError (server_name : String)
  | execError (message : String)

/-- Result of one `execute_tool` call: the returned value or raised
error, the bridge's `_request_id` afterwards, and the requests actually
sent over the wire (empty when the call failed before the transport). -/
structure BridgeStep where
  result : Except BridgeError (Option JsonValue)
  request_id : Nat
  sent : List JsonRpcRequest

/-- `MCPToolBridge.execute_tool`.  The manager's pooled clients are the
`clients` map; each client's `send_request` is modelled as a function
from the request to the response envelope.  (The source's
`if client is None` check is dead code: `manager.get_client` raises
`MCPConnectionError` rather than returning `None`.) -/
def execute_tool (reg : MCPToolRegistry)
    (clients : List (String × (JsonRpcRequest → MCPResponse)))
    (request_id : Nat) (full_tool_name : String) (params : JsonValue) :
    BridgeStep :=
  match get_tool reg full_tool_name with
  | none =>
      { result := Except.error (BridgeError.toolNotFound full_tool_name),
        request_id := request_id, sent := [] }
  | some tool =>
      match envLookup clients tool.server_name with
      | none =>
          { result := Except.error (BridgeError.connectionError tool.server_name),
            request_id := request_id, sent := [] }
      | some client =>
          let rid := request_id + 1
          let request : JsonRpcRequest :=
            { jsonrpc := "2.0", method := "tools/call", id := rid,
              params := { name := tool.name, arguments := params } }
          let response := client request
          match response.error with
          | some err =>
              { result := Except.error
                  (BridgeError.execError (err.message.getD "Unknown error")),
                request_id := rid, sent := [request] }
          | none =>
              { result := Except.ok response.result,
                request_id := rid, sent := [request] }

/-! ## `config.py` -/

/-- `TransportType` from `config.py`. -/
inductive TransportType where
  | stdio
  | sse
deriving DecidableEq, Repr

/-- `MCPServerConfig` from `config.py` (pydantic model with defaults;
`env` is a string-to-string dict). -/
structure MCPServerConfig where
  command : String
  args : List String := []
  env : List (String × String) := []
  enabled : Bool := true
  transport : TransportType := TransportType.stdio
  description : Option String := none
deriving DecidableEq, Repr

/-- Python `str.lower` modelled over the character list. -/
def py_lower (s : String) : String := ⟨s.data.map Char.toLower⟩

/-- Python `str.strip` (no arguments): drop leading and trailing
whitespace. -/
def py_strip (s : String) : String :=
  ⟨((s.data.dropWhile Char.isWhitespace).reverse.dropWhile
      Char.isWhitespace).reverse⟩

/-- Python `str.startswith`. -/
def py_startswith (s pfx : String) : Bool := pfx.data.isPrefixOf s.data

/-- Python `int(s)` for the non-negative decimal literals relevant here
(`MCP_SERVER_COUNT` values); other strings raise `ValueError` in Python
and are out of the modelled scope. -/
def py_int_nat (s : String) : Option Nat :=
  if s.data ≠ [] ∧ s.data.all Char.isDigit then
    some (s.data.foldl (fun n c => 10 * n + (c.toNat - 48)) 0)
  else none

def py_split_comma_go : List Char → List Char → List String
  | [], cur => [⟨cur.reverse⟩]
  | c :: rest, cur =>
      if c = ',' then ⟨cur.reverse⟩ :: py_split_comma_go rest []
      else py_split_comma_go rest (c :: cur)

/-- Python `s.split(",")`. -/
def py_split_comma (s : String) : List String := py_split_comma_go s.data []

/-- The `MCP_SERVER_N_ENABLED` parse from `parse_env_var_servers`:
`value.lower() in ("true", "1", "yes")`. -/
def parse_enabled (s : String) : Bool :=
  ["true", "1", "yes"].contains (py_lower s)

/-- The `MCP_SERVER_N_ARGS` parse: split on commas, strip whitespace,
keep non-empty items. -/
def parse_args (s : String) : List String :=
  ((py_split_comma s).map py_strip).filter (fun a => decide (a ≠ ""))

/-- The `MCP_SERVER_N_TRANSPORT` parse: `"sse"` (after lowercasing)
means SSE, anything else leaves the stdio default. -/
def parse_transport (s : String) : TransportType :=
  if py_lower s = "sse" then TransportType.sse else TransportType.stdio

/-- `_parse_server_env_vars`: collect `<pfx>_ENV_*` entries of the
process environment, keyed by the suffix after `_ENV_`. -/
def parse_server_env_vars (environ : List (String × String)) (pfx : String) :
    List (String × String) :=
  let envPfx := pfx ++ "_ENV_"
  environ.filterMap (fun p =>
    if py_startswith p.1 envPfx then some (p.1.drop envPfx.length, p.2) else none)

/-- `parse_env_var_servers` from `config.py`, with `os.environ` passed in
as the `environ` map.  `MCP_SERVER_COUNT` is read with Python `int()`;
a non-numeric value (which raises in Python, crashing the load) is out of
the modelled scope.  The early-`break` heuristic inside the loop is dead
code — when `MCP_SERVER_COUNT` is set, the loop range is already bounded
by that same count, so `i > count` never holds — and is therefore not
reproduced.  The pydantic validator on `command` strips surrounding
whitespace, reproduced here with `py_strip` (the validation error on
an all-whitespace command is likewise out of the modelled scope). -/
def parse_env_var_servers (environ : List (String × String))
    (pfx : String := "MCP_SERVER_") : List (String × MCPServerConfig) :=
  let max_count : Nat :=
    match envLookup environ "MCP_SERVER_COUNT" with
    | none => 100
    | some s => (py_int_nat s).getD 0
  (List.range max_count).foldl (fun servers i0 =>
    let server_pfx := pfx ++ toString (i0 + 1)
    match envLookup environ (server_pfx ++ "_NAME") with
    | none => servers
    | some server_name =>
        match envLookup environ (server_pfx ++ "_COMMAND") with
        | none => servers
        | some command =>
            let args : List String :=
              match envLookup environ (server_pfx ++ "_ARGS") with
              | none => []
              | some s => parse_args s
            let transport : TransportType :=
              match envLookup environ (server_pfx ++ "_TRANSPORT") with
              | none => TransportType.stdio
              | some s => parse_transport s
            let enabled : Bool :=
              match envLookup environ (server_pfx ++ "_ENABLED") with
              | none => true
              | some s => parse_enabled s
            let description := envLookup environ (server_pfx ++ "_DESCRIPTION")
            let env_vars := parse_server_env_vars environ server_pfx
            dictInsert server_name
              { command := py_strip command, args := args, env := env_vars,
                enabled := enabled, transport := transport,
                description := description }
              servers) []

/-! ## `loader.py` -/

/-- The merge step of `load_mcp_config` (lines 181–194): start from the
JSON-defined servers, then override with the environment-defined ones. -/
def merge_servers (json_servers env_servers : List (String × MCPServerConfig)) :
    List (String × MCPServerConfig) :=
  let merged := json_servers.foldl (fun acc p => dictInsert p.1 p.2 acc) []
  env_servers.foldl (fun acc p => dictInsert p.1 p.2 acc) merged

/-! ## `manager.py` -/

/-- `MCPConnectionManager._calculate_backoff`, with the
`random.uniform(0, 0.5)` draw passed in as `u` (so callers hypothesise
`0 ≤ u ≤ 1/2`). -/
def calculate_backoff (attempt : Nat) (u : ℚ) (base_delay : ℚ := 1)
    (max_delay : ℚ := 30) (jitter : Bool := true) : ℚ :=
  let delay := min (base_delay * 2 ^ attempt) max_delay
  if jitter then delay + delay * u else delay

/-- The three things one `client.connect()` attempt can do, as observed
by the retry loop of `connect_server`. -/
inductive ConnectOutcome where
  | success
  | returnedFalse
  | raisedConnErr
deriving DecidableEq, Repr

/-- Trace of the `for attempt in range(max_retries)` loop of
`connect_server`: how many times `client.connect()` was invoked, which
backoff delays were slept, and whether some attempt succeeded. -/
structure RetryTrace where
  attempts : Nat
  delays : List ℚ
  succeeded : Bool
deriving DecidableEq, Repr

/-- The retry loop of `connect_server`.  `behavior` gives the outcome of
`client.connect()` at each attempt index, `jitters` the jitter draw used
for the sleep after that attempt; `remaining` counts the loop iterations
left (`max_retries - attempt`).  A raising attempt sleeps
`_calculate_backoff(attempt)` only when it is not the last one; an
attempt whose `connect()` returns falsy retries without sleeping. -/
def connect_loop (behavior : Nat → ConnectOutcome) (jitters : Nat → ℚ)
    (max_retries : Nat) : (remaining : Nat) → (attempt : Nat) → RetryTrace
  | 0, _ => { attempts := 0, delays := [], succeeded := false }
  | remaining + 1, attempt =>
      match behavior attempt with
      | ConnectOutcome.success =>
          { attempts := 1, delays := [], succeeded := true }
      | ConnectOutcome.returnedFalse =>
          let r := connect_loop behavior jitters max_retries remaining (attempt + 1)
          { r with attempts := r.attempts + 1 }
      | ConnectOutcome.raisedConnErr =>
          let r := connect_loop behavior jitters max_retries remaining (attempt + 1)
          if attempt < max_retries - 1 then
            { attempts := r.attempts + 1,
              delays := calculate_backoff attempt (jitters attempt) :: r.delays,
              succeeded := r.succeeded }
          else
            { r with attempts := r.attempts + 1 }

/-- The manager state relevant to `connect_server`: the configured
servers and the client pool (clients of an abstract type `κ`). -/
structure ManagerState (κ : Type) where
  server_configs : List (String × MCPServerConfig) := []
  clients : List (String × κ) := []

/-- The `MCPConnectionError`s `connect_server` can raise. -/
inductive ManagerError where
  | serverNotFound (server_name : String)
  | serverDisabled (server_name : String)
  | retriesExhausted (server_name : String) (max_retries : Nat)
deriving DecidableEq, Repr

/-- Result of one `connect_server` call: the returned value or raised
error, the connect-attempt/delay trace, and the client pool afterwards. -/
structure ConnectServerStep (κ : Type) where
  result : Except ManagerError Bool
  attempts : Nat
  delays : List ℚ
  clients : List (String × κ)

/-- `MCPConnectionManager.connect_server`: reject unknown or disabled
servers before creating any client, then run the retry loop; on success
store the factory-created client (passed in as `client`) in the pool. -/
def connect_server (m : ManagerState κ) (server_name : String) (client : κ)
    (behavior : Nat → ConnectOutcome) (jitters : Nat → ℚ)
    (max_retries : Nat := 3) : ConnectServerStep κ :=
  match envLookup m.server_configs server_name with
  | none =>
      { result := Except.error (ManagerError.serverNotFound server_name),
        attempts := 0, delays := [], clients := m.clients }
  | some config =>
      if config.enabled = false then
        { result := Except.error (ManagerError.serverDisabled server_name),
          attempts := 0, delays := [], clients := m.clients }
      else
        let trace := connect_loop behavior jitters max_retries max_retries 0
        if trace.succeeded then
          { result := Except.ok true, attempts := trace.attempts,
            delays := trace.delays,
            clients := dictInsert server_name client m.clients }
        else
          { result := Except.error
              (ManagerError.retriesExhausted server_name max_retries),
            attempts := trace.attempts, delays := trace.delays,
            clients := m.clients }

/-! ## Circuit breaker lemmas -/

theorem on_failure_iter_succ (cfg : CircuitBreakerConfig) (now : Int) :
    ∀ (n : Nat) (s : CBState),
      on_failure_iter cfg now (n + 1) s =
        on_failure cfg now (on_failure_iter cfg now n s) := by
  intro n
  induction n with
  | zero => intro s; rfl
  | succ m ih =>
      intro s
      show on_failure_iter cfg now (m + 1) (on_failure cfg now s) = _
      rw [ih]
      rfl

theorem on_success_iter_succ (cfg : CircuitBreakerConfig) :
    ∀ (n : Nat) (s : CBState),
      on_success_iter cfg (n + 1) s =
        on_success cfg (on_success_iter cfg n s) := by
  intro n
  induction n with
  | zero => intro s; rfl
  | succ m ih =>
      intro s
      show on_success_iter cfg (m + 1) (on_success cfg s) = _
      rw [ih]
      rfl

/-- In the CLOSED state, failures below the threshold only accumulate the
counter and stamp the failure time. -/
theorem fail_iter_closed (cfg : CircuitBreakerConfig) (now : Int) :
    ∀ (k c sc : Nat) (lft : Option Int), c + k < cfg.failure_threshold →
      on_failure_iter cfg now k ⟨CircuitState.closed, c, sc, lft⟩ =
        ⟨CircuitState.closed, c + k, sc, if k = 0 then lft else some now⟩ := by
  intro k
  induction k with
  | zero => intro c sc lft _; simp [on_failure_iter]
  | succ m ih =>
      intro c sc lft hlt
      have hstep : on_failure cfg now ⟨CircuitState.closed, c, sc, lft⟩ =
          ⟨CircuitState.closed, c + 1, sc, some now⟩ := by
        have hnot : ¬ cfg.failure_threshold ≤ c + 1 := by omega
        simp [on_failure, hnot]
      show on_failure_iter cfg now m (on_failure cfg now ⟨CircuitState.closed, c, sc, lft⟩) = _
      rw [hstep, ih (c + 1) sc (some now) (by omega)]
      have : c + 1 + m = c + (m + 1) := by omega
      simp [this]

/-- In the HALF_OPEN state, successes below the threshold only accumulate
the success counter. -/
theorem succ_iter_halfopen (cfg : CircuitBreakerConfig) :
    ∀ (k c fc : Nat) (lft : Option Int), c + k < cfg.success_threshold →
      on_success_iter cfg k ⟨CircuitState.halfOpen, fc, c, lft⟩ =
        ⟨CircuitState.halfOpen, fc, c + k, lft⟩ := by
  intro k
  induction k with
  | zero => intro c fc lft _; simp [on_success_iter]
  | succ m ih =>
      intro c fc lft hlt
      have hstep : on_success cfg ⟨CircuitState.halfOpen, fc, c, lft⟩ =
          ⟨CircuitState.halfOpen, fc, c + 1, lft⟩ := by
        have hnot : ¬ cfg.success_threshold ≤ c + 1 := by omega
        simp [on_success, hnot]
      show on_success_iter cfg m (on_success cfg ⟨CircuitState.halfOpen, fc, c, lft⟩) = _
      rw [hstep, ih (c + 1) fc lft (by omega)]
      have : c + 1 + m = c + (m + 1) := by omega
      simp [this]

/-- C2: the breaker's transition rules equal the reference state machine:
fresh breakers start CLOSED with zero counters; with
`failure_threshold = N ≥ 1`, fewer than N consecutive recorded failures
leave it CLOSED (counting them), exactly N move it to OPEN recording the
failure timestamp, and N−1 failures followed by one success leave it
CLOSED with `failure_count = 0`; in HALF_OPEN, fewer than
`success_threshold` consecutive successes keep it HALF_OPEN,
`success_threshold` of them close it resetting both counters and the
timestamp, and a single failure immediately reopens it with a new
timestamp and `success_count = 0`. -/
theorem circuit_breaker_transition_rules (cfg : CircuitBreakerConfig)
    (hN : 1 ≤ cfg.failure_threshold) (hM : 1 ≤ cfg.success_threshold)
    (t t' : Int) :
    CircuitBreaker.initial = ⟨CircuitState.closed, 0, 0, none⟩ ∧
    (∀ k, k < cfg.failure_threshold →
      on_failure_iter cfg t k CircuitBreaker.initial =
        ⟨CircuitState.closed, k, 0, if k = 0 then none else some t⟩) ∧
    on_failure_iter cfg t cfg.failure_threshold CircuitBreaker.initial =
      ⟨CircuitState.opened, cfg.failure_threshold, 0, some t⟩ ∧
    (on_success cfg (on_failure_iter cfg t (cfg.failure_threshold - 1)
        CircuitBreaker.initial)).raw_state = CircuitState.closed ∧
    (on_success cfg (on_failure_iter cfg t (cfg.failure_threshold - 1)
        CircuitBreaker.initial)).failure_count = 0 ∧
    (∀ k fc lft, k < cfg.success_threshold →
      on_success_iter cfg k ⟨CircuitState.halfOpen, fc, 0, lft⟩ =
        ⟨CircuitState.halfOpen, fc, k, lft⟩) ∧
    (∀ fc lft, on_success_iter cfg cfg.success_threshold
        ⟨CircuitState.halfOpen, fc, 0, lft⟩ =
        ⟨CircuitState.closed, 0, 0, none⟩) ∧
    (∀ fc sc lft, on_failure cfg t' ⟨CircuitState.halfOpen, fc, sc, lft⟩ =
        ⟨CircuitState.opened, fc + 1, 0, some t'⟩) := by
  have hsub : ∀ k, k < cfg.failure_threshold →
      on_failure_iter cfg t k CircuitBreaker.initial =
        ⟨CircuitState.closed, k, 0, if k = 0 then none else some t⟩ := by
    intro k hk
    have := fail_iter_closed cfg t k 0 0 none (by omega)
    simpa [CircuitBreaker.initial] using this
  refine ⟨rfl, hsub, ?_, ?_, ?_, ?_, ?_, ?_⟩
  · -- exactly N failures open the circuit
    have hNeq : cfg.failure_threshold - 1 + 1 = cfg.failure_threshold := by omega
    have hprev := hsub (cfg.failure_threshold - 1) (by omega)
    calc on_failure_iter cfg t cfg.failure_threshold CircuitBreaker.initial
        = on_failure_iter cfg t (cfg.failure_threshold - 1 + 1) CircuitBreaker.initial := by
          rw [hNeq]
      _ = on_failure cfg t (on_failure_iter cfg t (cfg.failure_threshold - 1)
            CircuitBreaker.initial) := on_failure_iter_succ cfg t _ _
      _ = ⟨CircuitState.opened, cfg.failure_threshold, 0, some t⟩ := by
          rw [hprev]
          have hthr : cfg.failure_threshold ≤ cfg.failure_threshold - 1 + 1 := by omega
          simp [on_failure, hthr, hNeq]
  · -- a success after N-1 failures: state stays CLOSED
    have hprev := hsub (cfg.failure_threshold - 1) (by omega)
    rw [hprev]; simp [on_success]
  · -- a success after N-1 failures: failure_count resets to 0
    have hprev := hsub (cfg.failure_threshold - 1) (by omega)
    rw [hprev]; simp [on_success]
  · -- fewer than success_threshold successes keep HALF_OPEN
    intro k fc lft hk
    have := succ_iter_halfopen cfg k 0 fc lft (by omega)
    simpa using this
  · -- success_threshold successes close the circuit and reset everything
    intro fc lft
    have hMeq : cfg.success_threshold - 1 + 1 = cfg.success_threshold := by omega
    have hprev := succ_iter_halfopen cfg (cfg.success_threshold - 1) 0 fc lft (by omega)
    calc on_success_iter cfg cfg.success_threshold ⟨CircuitState.halfOpen, fc, 0, lft⟩
        = on_success_iter cfg (cfg.success_threshold - 1 + 1)
            ⟨CircuitState.halfOpen, fc, 0, lft⟩ := by rw [hMeq]
      _ = on_success cfg (on_success_iter cfg (cfg.success_threshold - 1)
            ⟨CircuitState.halfOpen, fc, 0, lft⟩) := on_success_iter_succ cfg _ _
      _ = ⟨CircuitState.closed, 0, 0, none⟩ := by
          rw [hprev]
          have hthr : cfg.success_threshold ≤ 0 + (cfg.success_threshold - 1) + 1 := by omega
          simp [on_success, hthr]
          omega
  · -- any single failure in HALF_OPEN reopens immediately
    intro fc sc lft
    simp [on_failure]

theorem circuit_breaker_transition_rules_witness :
    1 ≤ (2 : Nat) ∧
    on_failure_iter ⟨2, 60, 2⟩ 5 2 CircuitBreaker.initial =
      ⟨CircuitState.opened, 2, 0, some 5⟩ :=
  ⟨by decide,
   (circuit_breaker_transition_rules ⟨2, 60, 2⟩ (by decide) (by decide) 5 0).2.2.1⟩

/-- C3: the `call(operation)` contract: when the state observed after the
lazy transition evaluation is OPEN, `call` fails immediately with the
ConnectionError carrying `_time_until_reset` and the operation is not
invoked; when the recovery timeout has elapsed since the last failure,
the next state observation reports HALF_OPEN with `success_count` reset
to 0; in any non-OPEN observed state the operation is invoked and an
exception it raises is re-raised unchanged after the failure is
recorded. -/
theorem circuit_breaker_call_contract {ε α : Type} (cfg : CircuitBreakerConfig)
    (now : Int) (op : OpOutcome ε α) (s : CBState) :
    ((state_eval cfg now s).1 = CircuitState.opened →
      CircuitBreaker.call cfg now op s =
        { result := CallResult.circuitOpenErr
            (time_until_reset cfg now (state_eval cfg now s).2),
          state := (state_eval cfg now s).2, invoked := false }) ∧
    (∀ t : Int, s.raw_state = CircuitState.opened →
      s.last_failure_time = some t → cfg.recovery_timeout ≤ now - t →
      (state_eval cfg now s).1 = CircuitState.halfOpen ∧
      (state_eval cfg now s).2.success_count = 0) ∧
    ((state_eval cfg now s).1 ≠ CircuitState.opened →
      (CircuitBreaker.call cfg now op s).invoked = true ∧
      ∀ e : ε, op = OpOutcome.err e →
        (CircuitBreaker.call cfg now op s).result = CallResult.opErr e ∧
        (CircuitBreaker.call cfg now op s).state =
          on_failure cfg now (state_eval cfg now s).2) := by
  refine ⟨?_, ?_, ?_⟩
  · intro hopen
    simp [CircuitBreaker.call, hopen]
  · intro t hs hlft hto
    simp [state_eval, should_attempt_reset, hs, hlft, hto]
  · intro hnot
    cases op with
    | ok v =>
        refine ⟨by simp [CircuitBreaker.call, hnot], ?_⟩
        intro e he
        exact absurd he (by simp)
    | err e0 =>
        refine ⟨by simp [CircuitBreaker.call, hnot], ?_⟩
        intro e he
        have he0 : e0 = e := by injection he
        subst he0
        constructor
        · simp [CircuitBreaker.call, hnot]
        · simp [CircuitBreaker.call, hnot]

theorem circuit_breaker_call_contract_witness :
    CircuitBreaker.call (ε := String) (α := Nat) ⟨3, 60, 2⟩ 10
      (OpOutcome.ok 7) ⟨CircuitState.opened, 3, 0, some 0⟩ =
      { result := CallResult.circuitOpenErr 50,
        state := ⟨CircuitState.opened, 3, 0, some 0⟩, invoked := false } := by
  have h := (circuit_breaker_call_contract (ε := String) (α := Nat) ⟨3, 60, 2⟩ 10
    (OpOutcome.ok 7) ⟨CircuitState.opened, 3, 0, some 0⟩).1 (by decide)
  rw [h]
  decide

/-! ## Dictionary lemmas -/

theorem envLookup_dictInsert_self (k : String) (v : α) (l : List (String × α)) :
    envLookup (dictInsert k v l) k = some v := by
  unfold dictInsert
  by_cases h : l.any (fun p => p.1 = k) = true
  · simp only [h, if_true]
    induction l with
    | nil => simp at h
    | cons p t ih =>
        by_cases hp : p.1 = k
        · simp [envLookup, hp]
        · have ht : t.any (fun p => decide (p.1 = k)) = true := by
            simp [hp] at h
            simpa using h
          have := ih ht
          simpa [envLookup, hp] using this
  · simp only [h]
    induction l with
    | nil => simp [envLookup]
    | cons p t ih =>
        have hp : ¬ p.1 = k := by
          intro hk
          exact h (by simp [hk])
        have ht : ¬ t.any (fun p => decide (p.1 = k)) = true := by
          intro hk
          exact h (by simp [List.any_cons, hk])
        have := ih ht
        simpa [envLookup, hp] using this

theorem envLookup_cons_of_pos (p : String × α) (t : List (String × α))
    (k : String) (h : p.1 = k) : envLookup (p :: t) k = some p.2 := by
  simp [envLookup, List.find?_cons_of_pos, h]

theorem envLookup_cons_of_neg (p : String × α) (t : List (String × α))
    (k : String) (h : ¬ p.1 = k) : envLookup (p :: t) k = envLookup t k := by
  simp [envLookup, List.find?_cons_of_neg, h]

theorem envLookup_map_replace_ne (k k2 : String) (v : α)
    (l : List (String × α)) (h : k2 ≠ k) :
    envLookup (l.map (fun p => if p.1 = k then (k, v) else p)) k2 =
      envLookup l k2 := by
  induction l with
  | nil => rfl
  | cons p t ih =>
      by_cases hp : p.1 = k
      · have hne2 : ¬ p.1 = k2 := by rw [hp]; exact fun hk => h hk.symm
        rw [List.map_cons, if_pos hp,
          envLookup_cons_of_neg _ _ _ (fun hk => h hk.symm),
          envLookup_cons_of_neg _ _ _ hne2]
        exact ih
      · rw [List.map_cons, if_neg hp]
        by_cases hp2 : p.1 = k2
        · rw [envLookup_cons_of_pos _ _ _ hp2, envLookup_cons_of_pos _ _ _ hp2]
        · rw [envLookup_cons_of_neg _ _ _ hp2, envLookup_cons_of_neg _ _ _ hp2]
          exact ih

theorem envLookup_append_left_none (l r : List (String × α)) (k : String)
    (h : envLookup l k = none) :
    envLookup (l ++ r) k = envLookup r k := by
  induction l with
  | nil => rfl
  | cons p t ih =>
      by_cases hp : p.1 = k
      · rw [envLookup_cons_of_pos _ _ _ hp] at h
        exact absurd h (by simp)
      · rw [envLookup_cons_of_neg _ _ _ hp] at h
        rw [List.cons_append, envLookup_cons_of_neg _ _ _ hp]
        exact ih h

theorem envLookup_append_left_some (l r : List (String × α)) (k : String)
    (v : α) (h : envLookup l k = some v) :
    envLookup (l ++ r) k = some v := by
  induction l with
  | nil => simp [envLookup] at h
  | cons p t ih =>
      by_cases hp : p.1 = k
      · rw [envLookup_cons_of_pos _ _ _ hp] at h
        rw [List.cons_append, envLookup_cons_of_pos _ _ _ hp]
        exact h
      · rw [envLookup_cons_of_neg _ _ _ hp] at h
        rw [List.cons_append, envLookup_cons_of_neg _ _ _ hp]
        exact ih h

theorem envLookup_dictInsert_ne (k k2 : String) (v : α) (l : List (String × α))
    (h : k2 ≠ k) : envLookup (dictInsert k v l) k2 = envLookup l k2 := by
  unfold dictInsert
  by_cases hany : l.any (fun p => p.1 = k) = true
  · simp only [hany, if_true]
    exact envLookup_map_replace_ne k k2 v l h
  · rw [if_neg hany]
    cases hl : envLookup l k2 with
    | some w => exact envLookup_append_left_some l _ k2 w hl
    | none =>
        rw [envLookup_append_left_none l _ k2 hl,
          envLookup_cons_of_neg _ _ _ (fun hk => h hk.symm)]
        rfl

theorem dictInsert_length_present (k : String) (v : α) (l : List (String × α))
    (h : l.any (fun p => p.1 = k) = true) :
    (dictInsert k v l).length = l.length := by
  simp [dictInsert, h]

theorem dictInsert_length_absent (k : String) (v : α) (l : List (String × α))
    (h : ¬ l.any (fun p => p.1 = k) = true) :
    (dictInsert k v l).length = l.length + 1 := by
  simp [dictInsert, h]

/-- Elements of `dictInsert k v l`: the inserted pair, or an original pair
whose key differs from `k`. -/
theorem mem_dictInsert (k : String) (v : α) (l : List (String × α))
    (x : String × α) (hx : x ∈ dictInsert k v l) :
    x = (k, v) ∨ (x ∈ l ∧ x.1 ≠ k) := by
  unfold dictInsert at hx
  by_cases hany : l.any (fun p => p.1 = k) = true
  · rw [if_pos hany] at hx
    rcases List.mem_map.mp hx with ⟨y, hy, hxy⟩
    by_cases hyk : y.1 = k
    · left
      rw [← hxy, if_pos hyk]
    · right
      rw [← hxy, if_neg hyk]
      exact ⟨hy, hyk⟩
  · rw [if_neg hany] at hx
    rcases List.mem_append.mp hx with hx | hx
    · by_cases hxk : x.1 = k
      · exact absurd (List.any_eq_true.mpr ⟨x, hx, by simp [hxk]⟩) hany
      · right
        exact ⟨hx, hxk⟩
    · left
      simpa using hx

/-! ## String lemmas -/

theorem string_append_right_cancel {a b c : String} (h : a ++ c = b ++ c) :
    a = b := by
  apply String.ext
  have hd : a.data ++ c.data = b.data ++ c.data := by
    rw [← String.data_append, ← String.data_append, h]
  exact List.append_left_injective c.data hd

/-- Qualified names built from the same local name collide only for the
same provider. -/
theorem qualified_name_inj {A B n : String}
    (h : A ++ "." ++ n = B ++ "." ++ n) : A = B := by
  have h1 : A ++ "." = B ++ "." := string_append_right_cancel h
  exact string_append_right_cancel h1

/-- C9: `register_tool` always succeeds, returns the qualified name
`provider.local_name`, and fills in the descriptor's owning-provider and
qualified-name fields so that `get_tool` of the returned name retrieves
it; registering the same local name under two different providers gives
two distinct, independently retrievable entries and a count of 2, while
re-registering an existing qualified name overwrites without growing the
count. -/
theorem register_tool_contract (A B : String) (t1 t2 : MCPToolSchema)
    (hAB : A ≠ B) (hname : t1.name = t2.name) :
    (register_tool MCPToolRegistry.empty A t1).1 = A ++ "." ++ t1.name ∧
    (register_tool (register_tool MCPToolRegistry.empty A t1).2 B t2).1 =
      B ++ "." ++ t2.name ∧
    A ++ "." ++ t1.name ≠ B ++ "." ++ t2.name ∧
    get_tool (register_tool (register_tool MCPToolRegistry.empty A t1).2 B t2).2
        (A ++ "." ++ t1.name) =
      some { t1 with server_name := A, full_name := A ++ "." ++ t1.name } ∧
    get_tool (register_tool (register_tool MCPToolRegistry.empty A t1).2 B t2).2
        (B ++ "." ++ t2.name) =
      some { t2 with server_name := B, full_name := B ++ "." ++ t2.name } ∧
    get_tool_count (register_tool (register_tool MCPToolRegistry.empty A t1).2 B t2).2 = 2 ∧
    (∀ (reg : MCPToolRegistry) (s : String) (t : MCPToolSchema),
      get_tool (register_tool reg s t).2 (register_tool reg s t).1 =
        some { t with server_name := s, full_name := s ++ "." ++ t.name }) ∧
    (∀ (reg : MCPToolRegistry) (s : String) (t : MCPToolSchema),
      reg.tools.any (fun p => p.1 = s ++ "." ++ t.name) = true →
      get_tool_count (register_tool reg s t).2 = get_tool_count reg) := by
  have hdist : A ++ "." ++ t1.name ≠ B ++ "." ++ t2.name := by
    intro hcontra
    rw [hname] at hcontra
    exact hAB (qualified_name_inj hcontra)
  refine ⟨rfl, rfl, hdist, ?_, ?_, ?_, ?_, ?_⟩
  · simp only [register_tool, get_tool, MCPToolRegistry.empty]
    rw [envLookup_dictInsert_ne _ _ _ _ hdist, envLookup_dictInsert_self]
  · simp only [register_tool, get_tool, MCPToolRegistry.empty]
    rw [envLookup_dictInsert_self]
  · simp only [register_tool, get_tool_count, MCPToolRegistry.empty]
    rw [dictInsert_length_absent]
    · rfl
    · simp [dictInsert, hdist]
  · intro reg s t
    simp only [register_tool, get_tool]
    rw [envLookup_dictInsert_self]
  · intro reg s t hany
    simp only [register_tool, get_tool_count]
    exact dictInsert_length_present _ _ _ hany

theorem register_tool_contract_witness :
    "a" ≠ "b" ∧
    get_tool_count (register_tool
      (register_tool MCPToolRegistry.empty "a" ⟨"t", "", JsonValue.obj [], "", ""⟩).2
      "b" ⟨"t", "", JsonValue.obj [], "", ""⟩).2 = 2 :=
  ⟨by decide,
   (register_tool_contract "a" "b" ⟨"t", "", JsonValue.obj [], "", ""⟩
     ⟨"t", "", JsonValue.obj [], "", ""⟩ (by decide) rfl).2.2.2.2.2.1⟩

/-! ## Registry invariant (reachable states) -/

/-- The three mutating registry operations of `registry.py`. -/
inductive RegOp where
  | reg (server_name : String) (tool : MCPToolSchema)
  | rem (full_name : String)
  | clr

/-- Apply one mutating registry operation. -/
def applyOp (r : MCPToolRegistry) : RegOp → MCPToolRegistry
  | RegOp.reg s t => (register_tool r s t).2
  | RegOp.rem fn => (remove_tool r fn).2
  | RegOp.clr => MCPToolRegistry.clear r

/-- Run a sequence of mutating registry operations from the empty
registry. -/
def applyOps (ops : List RegOp) : MCPToolRegistry :=
  ops.foldl applyOp MCPToolRegistry.empty

/-- The (unstated) registry invariant: every stored key is the stored
descriptor's `full_name`, which is `server_name ++ "." ++ name`. -/
def RegistryWF (r : MCPToolRegistry) : Prop :=
  ∀ k t, (k, t) ∈ r.tools →
    t.full_name = k ∧ k = t.server_name ++ "." ++ t.name

theorem registryWF_applyOp (r : MCPToolRegistry) (op : RegOp)
    (h : RegistryWF r) : RegistryWF (applyOp r op) := by
  cases op with
  | reg s t =>
      intro k tl hmem
      simp only [applyOp, register_tool] at hmem
      rcases mem_dictInsert _ _ _ _ hmem with heq | ⟨hm, _⟩
      · obtain ⟨hk, htl⟩ := Prod.mk.injEq .. |>.mp heq
        subst hk
        subst htl
        exact ⟨rfl, rfl⟩
      · exact h k tl hm
  | rem fn =>
      intro k tl hmem
      simp only [applyOp, remove_tool] at hmem
      by_cases hany : r.tools.any (fun p => p.1 = fn) = true
      · rw [if_pos hany] at hmem
        exact h k tl (List.mem_filter.mp hmem).1
      · rw [if_neg hany] at hmem
        exact h k tl hmem
  | clr =>
      intro k tl hmem
      simp [applyOp, MCPToolRegistry.clear] at hmem

/-- C10: every registry state reachable from the empty registry by
`register_tool`, `remove_tool` and `clear` operations satisfies the key
invariant: each stored key equals the stored descriptor's `full_name`,
which is `server_name ++ "." ++ name`. -/
theorem registry_invariant (ops : List RegOp) : RegistryWF (applyOps ops) := by
  have hgen : ∀ (l : List RegOp) (r : MCPToolRegistry),
      RegistryWF r → RegistryWF (l.foldl applyOp r) := by
    intro l
    induction l with
    | nil => intro r h; exact h
    | cons op t ih =>
        intro r h
        exact ih _ (registryWF_applyOp r op h)
  have hempty : RegistryWF MCPToolRegistry.empty := by
    intro k t hmem
    simp [MCPToolRegistry.empty] at hmem
  exact hgen ops _ hempty

theorem registry_invariant_witness :
    RegistryWF (applyOps
      [RegOp.reg "srv" ⟨"echo", "", JsonValue.obj [], "", ""⟩,
       RegOp.rem "srv.echo", RegOp.clr]) :=
  registry_invariant
    [RegOp.reg "srv" ⟨"echo", "", JsonValue.obj [], "", ""⟩,
     RegOp.rem "srv.echo", RegOp.clr]

/-- Whenever `execute_tool` sends a request, that request carries id
`request_id + 1` and the bridge counter advances to the same value. -/
theorem execute_tool_sent_id (reg : MCPToolRegistry)
    (clients : List (String × (JsonRpcRequest → MCPResponse)))
    (rid : Nat) (nm : String) (params : JsonValue) (q : JsonRpcRequest)
    (h : (execute_tool reg clients rid nm params).sent = [q]) :
    q.id = rid + 1 ∧
    (execute_tool reg clients rid nm params).request_id = rid + 1 := by
  unfold execute_tool at *
  cases hgt : get_tool reg nm with
  | none => simp [hgt] at h
  | some tool =>
      cases hcl : envLookup clients tool.server_name with
      | none => simp [hgt, hcl] at h
      | some cl =>
          simp only [hgt, hcl] at h ⊢
          cases herr : (cl ⟨"2.0", "tools/call", rid + 1, ⟨tool.name, params⟩⟩).error with
          | some eo =>
              simp only [herr] at h ⊢
              have hq : q = ⟨"2.0", "tools/call", rid + 1, ⟨tool.name, params⟩⟩ := by
                simpa using h.symm
              subst hq
              simp
          | none =>
              simp only [herr] at h ⊢
              have hq : q = ⟨"2.0", "tools/call", rid + 1, ⟨tool.name, params⟩⟩ := by
                simpa using h.symm
              subst hq
              simp

/-- C4: `execute_tool` on an unregistered name fails with the
not-found error before anything is sent and without advancing the
request id; on a registered name with a pooled client it sends exactly
one `tools/call` request carrying `{name: local_name, arguments}` and id
`request_id + 1`; a response with an `error` field raises the generic
execution error with the provider's message (defaulting to
"Unknown error"), otherwise the response's `result` field is returned
as-is; request ids of successive sends strictly increase. -/
theorem execute_tool_contract (reg : MCPToolRegistry)
    (clients : List (String × (JsonRpcRequest → MCPResponse)))
    (rid : Nat) (nm : String) (params : JsonValue) :
    (get_tool reg nm = none →
      (execute_tool reg clients rid nm params).result =
        Except.error (BridgeError.toolNotFound nm) ∧
      (execute_tool reg clients rid nm params).sent = [] ∧
      (execute_tool reg clients rid nm params).request_id = rid) ∧
    (∀ (tool : MCPToolSchema) (cl : JsonRpcRequest → MCPResponse),
      get_tool reg nm = some tool →
      envLookup clients tool.server_name = some cl →
      (execute_tool reg clients rid nm params).sent =
        [⟨"2.0", "tools/call", rid + 1, ⟨tool.name, params⟩⟩] ∧
      (execute_tool reg clients rid nm params).request_id = rid + 1 ∧
      (∀ eo, (cl ⟨"2.0", "tools/call", rid + 1, ⟨tool.name, params⟩⟩).error = some eo →
        (execute_tool reg clients rid nm params).result =
          Except.error (BridgeError.execError (eo.message.getD "Unknown error"))) ∧
      ((cl ⟨"2.0", "tools/call", rid + 1, ⟨tool.name, params⟩⟩).error = none →
        (execute_tool reg clients rid nm params).result =
          Except.ok (cl ⟨"2.0", "tools/call", rid + 1, ⟨tool.name, params⟩⟩).result)) ∧
    (∀ (q1 q2 : JsonRpcRequest) (nm2 : String) (params2 : JsonValue),
      (execute_tool reg clients rid nm params).sent = [q1] →
      (execute_tool reg clients
          (execute_tool reg clients rid nm params).request_id
          nm2 params2).sent = [q2] →
      q1.id < q2.id) := by
  refine ⟨?_, ?_, ?_⟩
  · intro hnone
    refine ⟨?_, ?_, ?_⟩ <;> simp [execute_tool, hnone]
  · intro tool cl hgt hcl
    simp only [execute_tool, hgt, hcl]
    cases herr : (cl ⟨"2.0", "tools/call", rid + 1, ⟨tool.name, params⟩⟩).error with
    | some eo => simp [herr]
    | none => simp [herr]
  · intro q1 q2 nm2 params2 h1 h2
    have ha := execute_tool_sent_id reg clients rid nm params q1 h1
    have hb := execute_tool_sent_id reg clients
      (execute_tool reg clients rid nm params).request_id nm2 params2 q2 h2
    omega

theorem execute_tool_contract_witness :
    (execute_tool
        ⟨[("fs.read_file", ⟨"read_file", "", JsonValue.obj [], "fs", "fs.read_file"⟩)]⟩
        [("fs", fun _ => ⟨none, some (JsonValue.obj [("content", JsonValue.str "hi")])⟩)]
        0 "fs.read_file" (JsonValue.obj [("path", JsonValue.str "/x")])).sent =
      [⟨"2.0", "tools/call", 1,
        ⟨"read_file", JsonValue.obj [("path", JsonValue.str "/x")]⟩⟩] :=
  ((execute_tool_contract
      ⟨[("fs.read_file", ⟨"read_file", "", JsonValue.obj [], "fs", "fs.read_file"⟩)]⟩
      [("fs", fun _ => ⟨none, some (JsonValue.obj [("content", JsonValue.str "hi")])⟩)]
      0 "fs.read_file" (JsonValue.obj [("path", JsonValue.str "/x")])).2.1
    ⟨"read_file", "", JsonValue.obj [], "fs", "fs.read_file"⟩
    (fun _ => ⟨none, some (JsonValue.obj [("content", JsonValue.str "hi")])⟩)
    rfl rfl).1

/-- C1 counterexample: a breaker for provider `srv` whose observed state
(after lazy transition evaluation) is OPEN, while `srv.echo` is
registered and a client for `srv` is pooled — yet `execute_tool` sends
the request over the wire and returns the result instead of failing fast
with a ConnectionError: the bridge never consults any breaker. -/
theorem bridge_ignores_open_breaker_cex :
    (state_eval ⟨5, 60, 2⟩ 10 ⟨CircuitState.opened, 5, 0, some 0⟩).1 =
      CircuitState.opened ∧
    (execute_tool ⟨[("srv.echo", ⟨"echo", "", JsonValue.obj [], "srv", "srv.echo"⟩)]⟩
        [("srv", fun _ => ⟨none, some (JsonValue.str "ok")⟩)] 0 "srv.echo"
        (JsonValue.obj [])).sent =
      [⟨"2.0", "tools/call", 1, ⟨"echo", JsonValue.obj []⟩⟩] ∧
    (execute_tool ⟨[("srv.echo", ⟨"echo", "", JsonValue.obj [], "srv", "srv.echo"⟩)]⟩
        [("srv", fun _ => ⟨none, some (JsonValue.str "ok")⟩)] 0 "srv.echo"
        (JsonValue.obj [])).result = Except.ok (some (JsonValue.str "ok")) := by
  refine ⟨by decide, rfl, rfl⟩

/-- C1 (amended): tool execution through the Bridge is performed without
any circuit breaker: whatever any breaker's state after lazy transition
evaluation — in particular OPEN — as long as the tool is registered and a
client is pooled for its server, `execute_tool` invokes the client's
`send_request` (exactly one request is sent) and never fails with the
ConnectionError fast-fail path. -/
theorem execute_tool_independent_of_breaker (cfg : CircuitBreakerConfig)
    (now : Int) (b : CBState)
    (_hOpen : (state_eval cfg now b).1 = CircuitState.opened)
    (reg : MCPToolRegistry)
    (clients : List (String × (JsonRpcRequest → MCPResponse)))
    (rid : Nat) (nm : String) (params : JsonValue)
    (tool : MCPToolSchema) (cl : JsonRpcRequest → MCPResponse)
    (hgt : get_tool reg nm = some tool)
    (hcl : envLookup clients tool.server_name = some cl) :
    (execute_tool reg clients rid nm params).sent.length = 1 ∧
    ∀ srv, (execute_tool reg clients rid nm params).result ≠
      Except.error (BridgeError.connectionError srv) := by
  simp only [execute_tool, hgt, hcl]
  cases herr : (cl ⟨"2.0", "tools/call", rid + 1, ⟨tool.name, params⟩⟩).error with
  | some eo => simp [herr]
  | none => simp [herr]

theorem execute_tool_independent_of_breaker_witness :
    (state_eval ⟨5, 60, 2⟩ 10 ⟨CircuitState.opened, 5, 0, some 0⟩).1 =
      CircuitState.opened ∧
    (execute_tool ⟨[("srv.echo", ⟨"echo", "", JsonValue.obj [], "srv", "srv.echo"⟩)]⟩
        [("srv", fun _ => ⟨none, some (JsonValue.str "ok")⟩)] 0 "srv.echo"
        (JsonValue.obj [])).sent.length = 1 :=
  ⟨by decide,
   (execute_tool_independent_of_breaker ⟨5, 60, 2⟩ 10
      ⟨CircuitState.opened, 5, 0, some 0⟩ (by decide)
      ⟨[("srv.echo", ⟨"echo", "", JsonValue.obj [], "srv", "srv.echo"⟩)]⟩
      [("srv", fun _ => ⟨none, some (JsonValue.str "ok")⟩)] 0 "srv.echo"
      (JsonValue.obj []) ⟨"echo", "", JsonValue.obj [], "srv", "srv.echo"⟩
      (fun _ => ⟨none, some (JsonValue.str "ok")⟩) rfl rfl).1⟩

/-- Parsing a tools array in which every entry carries a `name` succeeds,
passing each `inputSchema` through verbatim (with the empty-object
default). -/
theorem parse_tools_list_ok (l : List RawTool) (h : ∀ td ∈ l, td.name ≠ none) :
    parse_tools_list l = Except.ok (l.map (fun td =>
      { name := td.name.getD "", description := td.description.getD "",
        input_schema := td.inputSchema.getD default_input_schema })) := by
  induction l with
  | nil => rfl
  | cons td tl ih =>
      cases htd : td.name with
      | none => exact absurd htd (h td (List.mem_cons_self td tl))
      | some nm =>
          have hrest := ih (fun td2 hm => h td2 (List.mem_cons_of_mem td hm))
          simp [parse_tools_list, parse_tool, htd, hrest]

/-- Parsing a tools array containing an entry without a `name` fails with
the validation error. -/
theorem parse_tools_list_err (l : List RawTool)
    (h : ∃ td ∈ l, td.name = none) :
    parse_tools_list l = Except.error "Tool missing required name field" := by
  induction l with
  | nil => simp at h
  | cons td tl ih =>
      cases htd : td.name with
      | none => simp [parse_tools_list, parse_tool, htd]
      | some nm =>
          obtain ⟨td2, hmem, hname⟩ := h
          rcases List.mem_cons.mp hmem with heq | hmem2
          · rw [heq, htd] at hname
            exact absurd hname (by simp)
          · have hrest := ih ⟨td2, hmem2, hname⟩
            simp [parse_tools_list, parse_tool, htd, hrest]

/-- C8: `discover_tools` returns an empty sequence (not an error) when
the response lacks a `result` field or the result lacks a `tools` field;
a tools array containing an entry without a `name` raises the validation
error; otherwise every entry yields a descriptor whose input schema is
the entry's `inputSchema` passed through verbatim, defaulting to the
empty object schema when absent. -/
theorem discover_tools_contract (response : ToolsListResponse) :
    (response.result = none → discover_tools response = Except.ok []) ∧
    (∀ result, response.result = some result → result.tools = none →
      discover_tools response = Except.ok []) ∧
    (∀ result tool_list, response.result = some result →
      result.tools = some tool_list →
      ((∃ td ∈ tool_list, td.name = none) →
        discover_tools response =
          Except.error "Tool missing required name field") ∧
      ((∀ td ∈ tool_list, td.name ≠ none) →
        discover_tools response = Except.ok (tool_list.map (fun td =>
          { name := td.name.getD "", description := td.description.getD "",
            input_schema := td.inputSchema.getD default_input_schema })))) := by
  refine ⟨?_, ?_, ?_⟩
  · intro hres
    simp [discover_tools, hres]
  · intro result hres htools
    simp [discover_tools, hres, htools]
  · intro result tool_list hres htools
    constructor
    · intro hex
      simp only [discover_tools, hres, htools]
      exact parse_tools_list_err tool_list hex
    · intro hall
      simp only [discover_tools, hres, htools]
      exact parse_tools_list_ok tool_list hall

theorem discover_tools_contract_witness :
    discover_tools ⟨some ⟨none⟩⟩ = Except.ok [] :=
  (discover_tools_contract ⟨some ⟨none⟩⟩).2.1 ⟨none⟩ rfl rfl

/-- C5: with `base_delay = 1` and `max_delay = 30`, every backoff delay
lies in `[min(2^a, 30), 1.5 * min(2^a, 30)]` for every attempt index and
every jitter draw in `[0, 1/2]`; consequently `connect_server` with
`max_retries = 3` against a `connect()` that raises twice and then
succeeds performs exactly 3 connect attempts, and the second
inter-attempt delay is strictly greater than the first. -/
theorem backoff_bounds_and_retry_growth {κ : Type} :
    (∀ (a : Nat) (u : ℚ), 0 ≤ u → u ≤ 1/2 →
      min ((2:ℚ) ^ a) 30 ≤ calculate_backoff a u ∧
      calculate_backoff a u ≤ 3/2 * min ((2:ℚ) ^ a) 30) ∧
    (∀ (m : ManagerState κ) (name : String) (client : κ)
      (config : MCPServerConfig) (behavior : Nat → ConnectOutcome)
      (jitters : Nat → ℚ),
      envLookup m.server_configs name = some config →
      config.enabled = true →
      (∀ i, 0 ≤ jitters i ∧ jitters i ≤ 1/2) →
      behavior 0 = ConnectOutcome.raisedConnErr →
      behavior 1 = ConnectOutcome.raisedConnErr →
      behavior 2 = ConnectOutcome.success →
      (connect_server m name client behavior jitters 3).attempts = 3 ∧
      (connect_server m name client behavior jitters 3).delays =
        [calculate_backoff 0 (jitters 0), calculate_backoff 1 (jitters 1)] ∧
      calculate_backoff 0 (jitters 0) < calculate_backoff 1 (jitters 1)) := by
  have hbounds : ∀ (a : Nat) (u : ℚ), 0 ≤ u → u ≤ 1/2 →
      min ((2:ℚ) ^ a) 30 ≤ calculate_backoff a u ∧
      calculate_backoff a u ≤ 3/2 * min ((2:ℚ) ^ a) 30 := by
    intro a u hu0 hu1
    have hd0 : (0:ℚ) ≤ min ((2:ℚ) ^ a) 30 :=
      le_min (pow_nonneg (by norm_num) a) (by norm_num)
    constructor
    · simp only [calculate_backoff, one_mul, if_true]
      nlinarith [mul_nonneg hd0 hu0]
    · simp only [calculate_backoff, one_mul, if_true]
      nlinarith [mul_le_mul_of_nonneg_left hu1 hd0]
  refine ⟨hbounds, ?_⟩
  intro m name client config behavior jitters hcfg hen hjit hb0 hb1 hb2
  have htrace : connect_loop behavior jitters 3 3 0 =
      { attempts := 3,
        delays := [calculate_backoff 0 (jitters 0), calculate_backoff 1 (jitters 1)],
        succeeded := true } := by
    simp [connect_loop, hb0, hb1, hb2]
  have hgrow : calculate_backoff 0 (jitters 0) < calculate_backoff 1 (jitters 1) := by
    have h0 := (hbounds 0 (jitters 0) (hjit 0).1 (hjit 0).2).2
    have h1 := (hbounds 1 (jitters 1) (hjit 1).1 (hjit 1).2).1
    have hm0 : min ((2:ℚ) ^ (0:Nat)) 30 = 1 := by norm_num [min_def]
    have hm1 : min ((2:ℚ) ^ (1:Nat)) 30 = 2 := by norm_num [min_def]
    rw [hm0] at h0
    rw [hm1] at h1
    linarith
  refine ⟨?_, ?_, hgrow⟩
  · simp [connect_server, hcfg, hen, htrace]
  · simp [connect_server, hcfg, hen, htrace]

theorem backoff_bounds_and_retry_growth_witness :
    (connect_server (κ := Unit)
      ⟨[("web", ⟨"npx", [], [], true, TransportType.stdio, none⟩)], []⟩
      "web" ()
      (fun a => if a < 2 then ConnectOutcome.raisedConnErr else ConnectOutcome.success)
      (fun _ => 0) 3).attempts = 3 :=
  ((backoff_bounds_and_retry_growth (κ := Unit)).2
    ⟨[("web", ⟨"npx", [], [], true, TransportType.stdio, none⟩)], []⟩
    "web" () ⟨"npx", [], [], true, TransportType.stdio, none⟩
    (fun a => if a < 2 then ConnectOutcome.raisedConnErr else ConnectOutcome.success)
    (fun _ => 0) rfl rfl (fun _ => ⟨le_refl 0, by norm_num⟩)
    rfl rfl rfl).1

/-- C6: `connect_server` on a provider that is absent from the
configuration, or whose configuration has `enabled = false`, always fails
with a ConnectionError, never invokes the transport's `connect`
(zero attempts), and leaves the client pool unchanged. -/
theorem connect_server_rejects_disabled_and_unknown {κ : Type}
    (m : ManagerState κ) (name : String) (client : κ)
    (behavior : Nat → ConnectOutcome) (jitters : Nat → ℚ)
    (max_retries : Nat) :
    (envLookup m.server_configs name = none →
      (connect_server m name client behavior jitters max_retries).result =
        Except.error (ManagerError.serverNotFound name) ∧
      (connect_server m name client behavior jitters max_retries).attempts = 0 ∧
      (connect_server m name client behavior jitters max_retries).clients =
        m.clients) ∧
    (∀ config, envLookup m.server_configs name = some config →
      config.enabled = false →
      (connect_server m name client behavior jitters max_retries).result =
        Except.error (ManagerError.serverDisabled name) ∧
      (connect_server m name client behavior jitters max_retries).attempts = 0 ∧
      (connect_server m name client behavior jitters max_retries).clients =
        m.clients) := by
  constructor
  · intro hnone
    refine ⟨?_, ?_, ?_⟩ <;> simp [connect_server, hnone]
  · intro config hcfg hdis
    refine ⟨?_, ?_, ?_⟩ <;> simp [connect_server, hcfg, hdis]

theorem connect_server_rejects_disabled_and_unknown_witness :
    (connect_server (κ := Unit)
      ⟨[("web", ⟨"npx", [], [], false, TransportType.stdio, none⟩)], []⟩
      "web" () (fun _ => ConnectOutcome.success) (fun _ => 0) 3).result =
      Except.error (ManagerError.serverDisabled "web") :=
  ((connect_server_rejects_disabled_and_unknown
      ⟨[("web", ⟨"npx", [], [], false, TransportType.stdio, none⟩)], []⟩
      "web" () (fun _ => ConnectOutcome.success) (fun _ => 0) 3).2
    ⟨"npx", [], [], false, TransportType.stdio, none⟩ rfl rfl).1

/-- Folding `dictInsert` over entries whose keys all differ from `k`
leaves the lookup of `k` unchanged. -/
theorem envLookup_foldl_insert_not_mem (l : List (String × α))
    (acc : List (String × α)) (k : String) (h : ∀ p ∈ l, p.1 ≠ k) :
    envLookup (l.foldl (fun acc p => dictInsert p.1 p.2 acc) acc) k =
      envLookup acc k := by
  induction l generalizing acc with
  | nil => rfl
  | cons p t ih =>
      rw [List.foldl_cons,
        ih (dictInsert p.1 p.2 acc) (fun q hq => h q (List.mem_cons_of_mem p hq)),
        envLookup_dictInsert_ne p.1 k p.2 acc
          (fun hk => h p (List.mem_cons_self p t) hk.symm)]

/-- Folding `dictInsert` over a list with unique keys makes each entry
retrievable. -/
theorem envLookup_foldl_insert_mem (l : List (String × α))
    (acc : List (String × α)) (k : String) (v : α)
    (hnd : (l.map Prod.fst).Nodup) (hmem : (k, v) ∈ l) :
    envLookup (l.foldl (fun acc p => dictInsert p.1 p.2 acc) acc) k = some v := by
  induction l generalizing acc with
  | nil => simp at hmem
  | cons p t ih =>
      rcases List.mem_cons.mp hmem with heq | hmem2
      · subst heq
        rw [List.foldl_cons]
        have hknott : ∀ q ∈ t, q.1 ≠ k := by
          intro q hq hcontra
          have hkmem : k ∈ t.map Prod.fst :=
            List.mem_map.mpr ⟨q, hq, hcontra⟩
          exact (List.nodup_cons.mp hnd).1 hkmem
        rw [envLookup_foldl_insert_not_mem t _ k hknott,
          envLookup_dictInsert_self]
      · rw [List.foldl_cons]
        exact ih (dictInsert p.1 p.2 acc) (List.nodup_cons.mp hnd).2 hmem2

/-- C7: in the merged configuration, every provider name defined via
environment variables maps to exactly the environment-defined entry
(hence equal in every field — command, args, env, enabled, transport,
description — so an env-supplied `enabled = false` beats an enabled JSON
definition), while a name defined only in the JSON file keeps its JSON
entry unchanged. -/
theorem merge_env_overrides (json_servers env_servers : List (String × MCPServerConfig))
    (hj : (json_servers.map Prod.fst).Nodup)
    (he : (env_servers.map Prod.fst).Nodup) :
    (∀ name cEnv, (name, cEnv) ∈ env_servers →
      envLookup (merge_servers json_servers env_servers) name = some cEnv) ∧
    (∀ name cJson, (name, cJson) ∈ json_servers →
      (∀ p ∈ env_servers, p.1 ≠ name) →
      envLookup (merge_servers json_servers env_servers) name = some cJson) ∧
    (∀ name cEnv cJson c, (name, cEnv) ∈ env_servers →
      (name, cJson) ∈ json_servers →
      envLookup (merge_servers json_servers env_servers) name = some c →
      c.command = cEnv.command ∧ c.args = cEnv.args ∧ c.env = cEnv.env ∧
      c.enabled = cEnv.enabled ∧ c.transport = cEnv.transport ∧
      c.description = cEnv.description) := by
  have henv : ∀ name cEnv, (name, cEnv) ∈ env_servers →
      envLookup (merge_servers json_servers env_servers) name = some cEnv := by
    intro name cEnv hmem
    unfold merge_servers
    exact envLookup_foldl_insert_mem env_servers _ name cEnv he hmem
  refine ⟨henv, ?_, ?_⟩
  · intro name cJson hmem hnot
    unfold merge_servers
    rw [envLookup_foldl_insert_not_mem env_servers _ name hnot]
    exact envLookup_foldl_insert_mem json_servers [] name cJson hj hmem
  · intro name cEnv cJson c hmemE _hmemJ hc
    rw [henv name cEnv hmemE] at hc
    have : c = cEnv := (Option.some.inj hc).symm
    subst this
    exact ⟨rfl, rfl, rfl, rfl, rfl, rfl⟩

theorem merge_env_overrides_witness :
    envLookup (merge_servers
      [("web", ⟨"node", [], [], true, TransportType.stdio, none⟩)]
      (parse_env_var_servers
        [("MCP_SERVER_COUNT", "1"), ("MCP_SERVER_1_NAME", "web"),
         ("MCP_SERVER_1_COMMAND", "npx"), ("MCP_SERVER_1_ENABLED", "false")]))
      "web" = some ⟨"npx", [], [], false, TransportType.stdio, none⟩ :=
  (merge_env_overrides
    [("web", ⟨"node", [], [], true, TransportType.stdio, none⟩)]
    (parse_env_var_servers
      [("MCP_SERVER_COUNT", "1"), ("MCP_SERVER_1_NAME", "web"),
       ("MCP_SERVER_1_COMMAND", "npx"), ("MCP_SERVER_1_ENABLED", "false")])
    (by decide) (by decide)).1 "web"
    ⟨"npx", [], [], false, TransportType.stdio, none⟩ (by decide)
